import Mathlib

/-!
Verification of the rulebook engine (guest/host orchestrator, visibility
scopes, reliable framed channel) against its specification.

The definitions below are a shallow embedding of the Rust sources:
  * `crates/rulebook-interface-types/src/lib.rs` — `PlayerId`, `Output`,
    `TaskResult`;
  * `crates/rulebook-runtime/src/channel.rs` — `Frame`, `Channel`,
    `Channel::send`, `Channel::receive`;
  * `crates/rulebook-server/src/main.rs` — `Room` and its `OutputHandler`
    implementation (`do_task_if`, `task_done`, `random`, `action`);
  * `crates/rulebook-runtime/src/lib.rs` — the `trigger_io` host function
    (event dispatch and the reply-buffer write).

Conventions of the embedding: the asynchronous byte/JSON stream under a
channel is modelled after parsing, as a list of frames the peer will
deliver, in order; machine integers (`u32`) are `Nat` with the overflow
check made explicit; fallible Rust code returns `Except`.
-/

deriving instance DecidableEq for Except

namespace Rulebook

/-- `PlayerId` from rulebook-interface-types: a closed enumeration of eight
color tags.  Total order is the listed order. -/
inductive PlayerId where
  | red
  | fuchsia
  | green
  | lime
  | yellow
  | blue
  | aqua
  | orange
deriving DecidableEq, Repr

/-- `TaskResult<T>` from rulebook-interface-types. -/
inductive TaskResult (V : Type) where
  | doTask
  | syncResult (value : V)
  | restricted
deriving DecidableEq, Repr

/-- `Output<T>` from rulebook-interface-types: the guest→host request.
The Rust field `end` of `Random` is renamed `stop` (`end` is a Lean
keyword), and `from` of `Action` is renamed `from_`. -/
inductive Output (V : Type) where
  | error (msg : String)
  | sessionStart
  | sessionEnd
  | updateState (value : V)
  | doTaskIf (allowed : List PlayerId)
  | taskDone (targets : List PlayerId) (value : V)
  | random (start stop : Int)
  | action (from_ : PlayerId) (param : V)
deriving DecidableEq, Repr

/-- `Frame<T>` from channel.rs: the channel wire record, after JSON
parsing.  Ids are `u32` in the source, modelled as `Nat` (the overflow
check of `send` is explicit below). -/
inductive Frame (V : Type) where
  | msg (id : Nat) (val : V)
  | ack (id : Nat)
deriving DecidableEq, Repr

/-- The channel state from channel.rs: `next_id` counter and the one-slot
stash `received` for a message that arrived while a send awaited its ack. -/
structure Channel (V : Type) where
  nextId : Nat
  received : Option (Nat × V)
deriving DecidableEq, Repr

/-- `u32::MAX`: `next_id.checked_add(1)` in `Channel::send` returns `None`
exactly when `next_id` has this value. -/
def u32Max : Nat := 2 ^ 32 - 1

/-- The terminal failures of the channel layer: the `expect` panic on id
overflow and the two connection-closed bailouts. -/
inductive ChanError where
  | idOverflow
  | connectionClosedMidSend
  | connectionClosedMidReceive
deriving DecidableEq, Repr

/-- `Channel::new`: fresh channel over a stream. -/
def Channel.new {V : Type} : Channel V :=
  { nextId := 0, received := none }

/-- The read loop inside `Channel::send` (channel.rs lines 48-61): read
frames until an ack carrying `currentId` arrives; a msg frame overwrites
the stash; an ack with a different id is skipped; end of stream is a
connection-closed failure.  Returns the final stash and the unread rest of
the stream. -/
def sendLoop {V : Type} (currentId : Nat) (stash : Option (Nat × V)) :
    List (Frame V) → Except ChanError (Option (Nat × V) × List (Frame V))
  | [] => Except.error ChanError.connectionClosedMidSend
  | Frame.ack id :: rest =>
    if id = currentId then Except.ok (stash, rest)
    else sendLoop currentId stash rest
  | Frame.msg id val :: rest => sendLoop currentId (some (id, val)) rest

/-- `Channel::send` (channel.rs lines 33-64).  Result on success: the
frames emitted on the stream (the single `msg`), the new channel state and
the unread rest of the incoming stream. -/
def Channel.send {V : Type} (c : Channel V) (val : V) (stream : List (Frame V)) :
    Except ChanError (List (Frame V) × Channel V × List (Frame V)) :=
  if u32Max ≤ c.nextId then Except.error ChanError.idOverflow
  else
    match sendLoop c.nextId c.received stream with
    | Except.ok (stash, rest) =>
      Except.ok ([Frame.msg c.nextId val], ⟨c.nextId + 1, stash⟩, rest)
    | Except.error e => Except.error e

/-- The read loop inside `Channel::receive` (channel.rs lines 74-83): read
frames until a msg arrives, ack it and return its payload; ack frames are
ignored; end of stream is a connection-closed failure. -/
def recvLoop {V : Type} :
    List (Frame V) → Except ChanError (V × List (Frame V) × List (Frame V))
  | [] => Except.error ChanError.connectionClosedMidReceive
  | Frame.msg id val :: rest => Except.ok (val, [Frame.ack id], rest)
  | Frame.ack _ :: rest => recvLoop rest

/-- `Channel::receive` (channel.rs lines 66-85).  Result on success: the
payload, the frames emitted (the ack), the new channel state and the
unread rest of the stream.  Payload deserialization is modelled as the
identity. -/
def Channel.receive {V : Type} (c : Channel V) (stream : List (Frame V)) :
    Except ChanError (V × List (Frame V) × Channel V × List (Frame V)) :=
  match c.received with
  | some (id, val) =>
    Except.ok (val, [Frame.ack id], { nextId := c.nextId, received := none }, stream)
  | none =>
    match recvLoop stream with
    | Except.ok (val, acks, rest) => Except.ok (val, acks, c, rest)
    | Except.error e => Except.error e

/-- Splits a stream at the first `ack` frame carrying `id`: the frames
strictly before it and the frames strictly after it.  `none` when no such
ack occurs. -/
def splitAtAck {V : Type} (id : Nat) :
    List (Frame V) → Option (List (Frame V) × List (Frame V))
  | [] => none
  | Frame.ack i :: rest =>
    if i = id then some ([], rest)
    else (splitAtAck id rest).map (fun pr => (Frame.ack i :: pr.1, pr.2))
  | Frame.msg i v :: rest =>
    (splitAtAck id rest).map (fun pr => (Frame.msg i v :: pr.1, pr.2))

/-- The stash left after reading a list of frames starting from `init`:
each msg frame overwrites it, ack frames leave it alone. -/
def stashAfter {V : Type} (init : Option (Nat × V)) :
    List (Frame V) → Option (Nat × V)
  | [] => init
  | Frame.msg i v :: rest => stashAfter (some (i, v)) rest
  | Frame.ack _ :: rest => stashAfter init rest

/-- The first `msg` frame of a stream (its id, payload and the frames
after it), skipping any leading `ack` frames. -/
def firstMsg {V : Type} :
    List (Frame V) → Option (Nat × V × List (Frame V))
  | [] => none
  | Frame.msg id val :: rest => some (id, val, rest)
  | Frame.ack _ :: rest => firstMsg rest

/-- The ids of the `msg` frames of a frame list, in order. -/
def msgIds {V : Type} : List (Frame V) → List Nat
  | [] => []
  | Frame.msg id _ :: rest => id :: msgIds rest
  | Frame.ack _ :: rest => msgIds rest

/-- Runs a sequence of `Channel::send` calls: each list entry is the value
to send and the frames the peer delivers during that send.  Returns all
frames emitted and the final channel state. -/
def runSends {V : Type} (c : Channel V) :
    List (V × List (Frame V)) → Except ChanError (List (Frame V) × Channel V)
  | [] => Except.ok ([], c)
  | (val, stream) :: rest =>
    match c.send val stream with
    | Except.ok (emitted, c2, _unread) =>
      match runSends c2 rest with
      | Except.ok (frames, cf) => Except.ok (emitted ++ frames, cf)
      | Except.error e => Except.error e
    | Except.error e => Except.error e

/-- The host-side per-room state from main.rs (`struct Room`): `chans` is
the key set of the per-player channel map (the seated players; channel
transport state is modelled separately by `Channel`), `visibility` the
scope stack, with the innermost scope at the end of the list (Rust `Vec`
push/pop act at the end). -/
structure Room where
  chans : List PlayerId
  visibility : List (List PlayerId)
deriving DecidableEq, Repr

/-- `Room::scope` (main.rs lines 122-127): top of the visibility stack, or
the full set of seated players when the stack is empty. -/
def Room.scope (r : Room) : List PlayerId :=
  (r.visibility.getLast?).getD r.chans

/-- The send loop of `Room::task_done` and the channel lookup
`Room::chan` inside it: one message per entry of `scope`, in order, with
payload `doTask` if the player is in the just-closed frame, else
`syncResult value` if the player is in `targets`, else `restricted`;
a scope entry without a channel is an error. -/
def taskDoneSends {V : Type} (chans last_frame targets : List PlayerId) (value : V) :
    List PlayerId → Except String (List (PlayerId × TaskResult V))
  | [] => Except.ok []
  | player :: rest =>
    if chans.contains player then
      match taskDoneSends chans last_frame targets value rest with
      | Except.ok sends =>
        Except.ok ((player,
          if last_frame.contains player then TaskResult.doTask
          else if targets.contains player then TaskResult.syncResult value
          else TaskResult.restricted) :: sends)
      | Except.error e => Except.error e
    else Except.error "game tried to grab not existing player channel"

/-- The send loop shared by `Room::random` and `Room::action`: the same
value over the channel of every listed player, in order; a player without
a channel is an error. -/
def broadcastSends {V : Type} (chans : List PlayerId) (value : V) :
    List PlayerId → Except String (List (PlayerId × V))
  | [] => Except.ok []
  | player :: rest =>
    if chans.contains player then
      match broadcastSends chans value rest with
      | Except.ok sends => Except.ok ((player, value) :: sends)
      | Except.error e => Except.error e
    else Except.error "game tried to grab not existing player channel"

/-- `Room::do_task_if` (main.rs lines 142-151): fail if some player of
`allowed` is outside the current scope, otherwise push `allowed` and reply
`DoTask`. -/
def Room.do_task_if {V : Type} (r : Room) (allowed : List PlayerId) :
    Except String (Room × TaskResult V) :=
  let current_scope := r.scope
  if allowed.any (fun p => !(current_scope.contains p)) then
    Except.error "game tries to extend visibility"
  else
    Except.ok ({ r with visibility := r.visibility ++ [allowed] }, TaskResult.doTask)

/-- `Room::task_done` (main.rs lines 153-174): pop the innermost frame
(error when the stack is empty), then send to every member of the new
current scope.  On success returns the new room state and the sequence of
(player, payload) channel sends. -/
def Room.task_done {V : Type} (r : Room) (targets : List PlayerId) (value : V) :
    Except String (Room × List (PlayerId × TaskResult V)) :=
  match r.visibility.getLast? with
  | none => Except.error "game requested taskDone event without previous doTaskIf"
  | some last_frame =>
    let popped : Room := { r with visibility := r.visibility.dropLast }
    match taskDoneSends popped.chans last_frame targets value popped.scope with
    | Except.ok sends => Except.ok (popped, sends)
    | Except.error e => Except.error e

/-- Modelled from the external crate fastrand: `fastrand::i32(start..=end)`
draws an integer from the inclusive range.  Modelled as an oracle over a
`seed`; the only property the engine relies on is that the result lies in
`[start, stop]` whenever the range is non-empty, which this model has for
every seed. -/
def fastrandI32 (seed : Nat) (start stop : Int) : Int :=
  start + ((seed % (stop + 1 - start).toNat : Nat) : Int)

/-- `Room::random` (main.rs lines 176-185): draw a value in the inclusive
range, send it over the channel of every member of the current scope, and
reply with it.  On success returns the room (unchanged), the drawn value
and the sequence of channel sends. -/
def Room.random (r : Room) (seed : Nat) (start stop : Int) :
    Except String (Room × Int × List (PlayerId × Int)) :=
  let value := fastrandI32 seed start stop
  match broadcastSends r.chans value r.scope with
  | Except.ok sends => Except.ok (r, value, sends)
  | Except.error e => Except.error e

/-- `Room::action` (main.rs lines 187-197): receive one value from
`from_`'s channel (the `received` parameter models the awaited
`Channel::receive`; a missing channel is an error), retain the members of
the current scope other than `from_`, forward the value to each of them,
and reply with it. -/
def Room.action {V : Type} (r : Room) (from_ : PlayerId) (received : V) :
    Except String (Room × V × List (PlayerId × V)) :=
  if r.chans.contains from_ then
    match broadcastSends r.chans received (r.scope.filter (fun p => !(p == from_))) with
    | Except.ok sends => Except.ok (r, received, sends)
    | Except.error e => Except.error e
  else Except.error "game tried to grab not existing player channel"

/-- `Room::state` (main.rs lines 138-140): the state sink of the server's
handler is a no-op. -/
def Room.state {V : Type} (_r : Room) (_json : V) : Except String Unit :=
  Except.ok ()

/-- The host→guest replies `trigger_io` serializes into the guest input
buffer, one per `Output` variant. -/
inductive Reply (V : Type) where
  | roomInfo (players : List PlayerId)
  | unit
  | taskResult (t : TaskResult V)
  | int (value : Int)
  | raw (value : V)
deriving DecidableEq, Repr

/-- The event dispatch of the host function `func_trigger_io`
(rulebook-runtime lib.rs lines 155-184), with the server's `Room` as the
`OutputHandler`.  `seed` feeds the modelled RNG of the `random` branch and
`playerInput` models the value received from the acting player's channel
in the `action` branch.  The serialization of the reply and the guest
buffer write are modelled separately by `writeReply`. -/
def trigger_io {V : Type} (enable_state : Bool) (r : Room) (seed : Nat)
    (playerInput : V) : Output V → Except String (Room × Reply V)
  | Output.error msg => Except.error ("game logic error: " ++ msg)
  | Output.sessionStart => Except.ok (r, Reply.roomInfo r.chans)
  | Output.sessionEnd => Except.ok (r, Reply.unit)
  | Output.updateState st =>
    if enable_state then
      match r.state st with
      | Except.ok () => Except.ok (r, Reply.unit)
      | Except.error e => Except.error e
    else Except.ok (r, Reply.unit)
  | Output.doTaskIf allowed =>
    match r.do_task_if (V := V) allowed with
    | Except.ok (r2, t) => Except.ok (r2, Reply.taskResult t)
    | Except.error e => Except.error e
  | Output.taskDone targets value =>
    match r.task_done targets value with
    | Except.ok (r2, _sends) => Except.ok (r2, Reply.unit)
    | Except.error e => Except.error e
  | Output.random start stop =>
    match r.random seed start stop with
    | Except.ok (r2, value, _sends) => Except.ok (r2, Reply.int value)
    | Except.error e => Except.error e
  | Output.action from_ _param =>
    match r.action from_ playerInput with
    | Except.ok (r2, value, _sends) => Except.ok (r2, Reply.raw value)
    | Except.error e => Except.error e

/-- `wasmtime::Memory::write`: bounds-check, then copy the bytes into the
linear memory at `ptr`.  On a bounds failure the memory is untouched. -/
def memWrite (mem : List Nat) (ptr : Nat) (dat : List Nat) :
    Except String (List Nat) :=
  if ptr + dat.length ≤ mem.length then
    Except.ok (mem.take ptr ++ dat ++ mem.drop (ptr + dat.length))
  else Except.error "out of bounds memory access"

/-- The tail of `func_trigger_io` (rulebook-runtime lib.rs lines 186-188):
`ensure!(json.len() <= input_cap)`, then write the serialized reply at
`input_ptr` and return the written length.  Returns the memory after the
call (unchanged on failure) and the result. -/
def writeReply (mem : List Nat) (input_ptr input_cap : Nat) (json : List Nat) :
    List Nat × Except String Nat :=
  if json.length ≤ input_cap then
    match memWrite mem input_ptr json with
    | Except.ok mem2 => (mem2, Except.ok json.length)
    | Except.error e => (mem, Except.error e)
  else (mem, Except.error "reply length exceeds advertised input capacity")

/-! ## Channel lemmas -/

/-- The send read-loop, in closed form: it consumes the stream up to the
first ack carrying `id`, the stash ends as the last msg frame seen (or the
initial stash when none), and an absent ack means the connection closed. -/
theorem sendLoop_eq {V : Type} (id : Nat) (stash : Option (Nat × V))
    (s : List (Frame V)) :
    sendLoop id stash s =
      match splitAtAck id s with
      | some (pre, post) => Except.ok (stashAfter stash pre, post)
      | none => Except.error ChanError.connectionClosedMidSend := by
  induction s generalizing stash with
  | nil => rfl
  | cons f rest ih =>
    cases f with
    | ack i =>
      by_cases h : i = id
      · simp [sendLoop, splitAtAck, h, stashAfter]
      · cases hx : splitAtAck id rest with
        | none => simp [sendLoop, splitAtAck, h, hx, ih, stashAfter]
        | some pr => simp [sendLoop, splitAtAck, h, hx, ih, stashAfter]
    | msg i v =>
      cases hx : splitAtAck id rest with
      | none => simp [sendLoop, splitAtAck, hx, ih, stashAfter]
      | some pr => simp [sendLoop, splitAtAck, hx, ih, stashAfter]

/-- `Channel::send`, in closed form. -/
theorem Channel.send_eq {V : Type} (c : Channel V) (v : V) (s : List (Frame V)) :
    c.send v s =
      if u32Max ≤ c.nextId then Except.error ChanError.idOverflow
      else
        match splitAtAck c.nextId s with
        | some (pre, post) =>
          Except.ok ([Frame.msg c.nextId v],
            ⟨c.nextId + 1, stashAfter c.received pre⟩, post)
        | none => Except.error ChanError.connectionClosedMidSend := by
  unfold Channel.send
  rw [sendLoop_eq]
  by_cases h : u32Max ≤ c.nextId
  · simp [h]
  · cases hx : splitAtAck c.nextId s with
    | none => simp [h, hx]
    | some pr => simp [h, hx]

/-- A successful send emitted exactly the one msg frame, with the
pre-send `next_id` as its id, and incremented `next_id` by one. -/
theorem send_ok_shape {V : Type} (c : Channel V) (v : V) (s : List (Frame V))
    (emitted : List (Frame V)) (c2 : Channel V) (rest : List (Frame V))
    (h : c.send v s = Except.ok (emitted, c2, rest)) :
    emitted = [Frame.msg c.nextId v] ∧ c2.nextId = c.nextId + 1 := by
  rw [Channel.send_eq] at h
  by_cases hov : u32Max ≤ c.nextId
  · simp [hov] at h
  · cases hx : splitAtAck c.nextId s with
    | none => simp [hov, hx] at h
    | some pr =>
      simp [hov, hx] at h
      exact ⟨h.1.symm, by rw [← h.2.1]⟩

/-- The read-loop of `Channel::receive`, in closed form: it returns the
first msg frame, acking it, skipping leading acks. -/
theorem recvLoop_eq {V : Type} (s : List (Frame V)) :
    recvLoop s =
      match firstMsg s with
      | some (id, val, post) => Except.ok (val, [Frame.ack id], post)
      | none => Except.error ChanError.connectionClosedMidReceive := by
  induction s with
  | nil => rfl
  | cons f rest ih =>
    cases f with
    | msg i v => rfl
    | ack i =>
      cases hx : firstMsg rest with
      | none => simp [recvLoop, firstMsg, hx, ih]
      | some pr => simp [recvLoop, firstMsg, hx, ih]

/-- `msgIds` distributes over append. -/
theorem msgIds_append {V : Type} (a b : List (Frame V)) :
    msgIds (a ++ b) = msgIds a ++ msgIds b := by
  induction a with
  | nil => rfl
  | cons f rest ih => cases f <;> simp [msgIds, ih]

/-- A successful run of consecutive sends emits msg ids
`next_id, next_id + 1, …` without gaps or repeats, and leaves `next_id`
advanced by the number of sends. -/
theorem runSends_spec {V : Type} (xs : List (V × List (Frame V)))
    (c cf : Channel V) (frames : List (Frame V))
    (h : runSends c xs = Except.ok (frames, cf)) :
    msgIds frames = List.range' c.nextId xs.length ∧
      cf.nextId = c.nextId + xs.length := by
  induction xs generalizing c frames with
  | nil =>
    simp [runSends] at h
    obtain ⟨rfl, rfl⟩ := h
    exact ⟨rfl, rfl⟩
  | cons x rest ih =>
    rw [runSends] at h
    cases hsend : Channel.send c x.1 x.2 with
    | error e => rw [hsend] at h; dsimp only at h; exact absurd h (by simp)
    | ok out =>
      obtain ⟨emitted, c2, unread⟩ := out
      rw [hsend] at h
      dsimp only at h
      cases hrun : runSends c2 rest with
      | error e => rw [hrun] at h; dsimp only at h; exact absurd h (by simp)
      | ok out2 =>
        obtain ⟨frames2, cf2⟩ := out2
        rw [hrun] at h
        dsimp only at h
        simp at h
        obtain ⟨hf, hcf⟩ := h
        subst hcf
        obtain ⟨hshape, hnext⟩ := send_ok_shape c x.1 x.2 emitted c2 unread hsend
        obtain ⟨hids, hfin⟩ := ih c2 frames2 hrun
        constructor
        · rw [← hf, msgIds_append, hshape, hids, hnext]
          rfl
        · simp only [List.length_cons]
          omega

/-! ## Claim theorems: channel layer -/

/-- C6: `Channel::send(value)` assigns the current `next_id` as the
message id, increments `next_id` (u32 overflow is fatal), emits
`msg{id, val}`, then reads frames until an ack carrying exactly that id
arrives and returns success; any msg frame read in the meantime is
stashed into the pending slot (last one standing), acks with a different
id are skipped, and if the stream ends before the matching ack, send
fails with a connection-closed error. -/
theorem c6_send_contract {V : Type} (c : Channel V) (v : V)
    (s : List (Frame V)) :
    c.send v s =
      if u32Max ≤ c.nextId then Except.error ChanError.idOverflow
      else
        match splitAtAck c.nextId s with
        | some (pre, post) =>
          Except.ok ([Frame.msg c.nextId v],
            ⟨c.nextId + 1, stashAfter c.received pre⟩, post)
        | none => Except.error ChanError.connectionClosedMidSend :=
  Channel.send_eq c v s

/-- C7: `Channel::receive()` consumes an occupied pending slot, emitting
an ack with the stashed id and returning the stashed payload with the
slot left empty; otherwise it reads frames until a msg arrives, acks it
and returns its payload, ignoring ack frames; if the stream ends before
a msg arrives it fails with a connection-closed error. -/
theorem c7_receive_contract {V : Type} (c : Channel V) (s : List (Frame V)) :
    c.receive s =
      match c.received with
      | some (id, val) =>
        Except.ok (val, [Frame.ack id],
          { nextId := c.nextId, received := none }, s)
      | none =>
        match firstMsg s with
        | some (id, val, post) => Except.ok (val, [Frame.ack id], c, post)
        | none => Except.error ChanError.connectionClosedMidReceive := by
  unfold Channel.receive
  cases c.received with
  | some pr => rfl
  | none =>
    rw [recvLoop_eq]
    cases hx : firstMsg s with
    | none => rfl
    | some pr => rfl

/-- C8: on every channel the msg ids of successive sends are exactly
`0, 1, 2, …` without gaps or repeats: a fresh channel starts at
`next_id = 0`, each send uses the current `next_id` and increments it by
one, and overflow of the u32 counter aborts instead of wrapping. -/
theorem c8_msg_ids_sequential :
    (∀ (V : Type), (Channel.new : Channel V).nextId = 0 ∧
        (Channel.new : Channel V).received = none) ∧
    (∀ (V : Type) (xs : List (V × List (Frame V))) (frames : List (Frame V))
        (cf : Channel V), runSends Channel.new xs = Except.ok (frames, cf) →
        msgIds frames = List.range xs.length ∧ cf.nextId = xs.length) ∧
    (∀ (V : Type) (c : Channel V) (v : V) (s : List (Frame V)),
        u32Max ≤ c.nextId → c.send v s = Except.error ChanError.idOverflow) := by
  refine ⟨fun V => ⟨rfl, rfl⟩, fun V xs frames cf h => ?_, fun V c v s h => ?_⟩
  · obtain ⟨hids, hfin⟩ := runSends_spec xs Channel.new cf frames h
    refine ⟨by rw [hids, List.range_eq_range']; rfl, ?_⟩
    rw [hfin]
    show 0 + xs.length = xs.length
    omega
  · rw [Channel.send_eq, if_pos h]

/-- Witness for C8: two consecutive sends on a fresh channel emit ids
`0, 1`, and a channel whose counter sits at `u32::MAX` fails with the
overflow error. -/
theorem c8_msg_ids_sequential_witness :
    (msgIds [Frame.msg 0 (5 : Nat), Frame.msg 1 7] = List.range 2 ∧
      (⟨2, none⟩ : Channel Nat).nextId = 2) ∧
    Channel.send (⟨u32Max, none⟩ : Channel Nat) 0 []
      = Except.error ChanError.idOverflow :=
  ⟨c8_msg_ids_sequential.2.1 Nat [(5, [Frame.ack 0]), (7, [Frame.ack 1])]
      [Frame.msg 0 5, Frame.msg 1 7] ⟨2, none⟩ (by decide),
    c8_msg_ids_sequential.2.2 Nat ⟨u32Max, none⟩ 0 [] (Nat.le_refl u32Max)⟩

/-- C10: if during `Channel::send` a second msg frame arrives before the
awaited ack while an earlier msg is already stashed, the new message
silently overwrites the stash without any error — the send completes as
if the first message had never arrived (so its payload is never returned
by any receive), and the only frame the send emits is its own msg (so the
overwritten message is never acked). -/
theorem c10_pending_overwrite {V : Type} (c : Channel V) (v w1 w2 : V)
    (i1 i2 : Nat) (rest : List (Frame V)) (h : c.nextId < u32Max) :
    Channel.send c v
        (Frame.msg i1 w1 :: Frame.msg i2 w2 :: Frame.ack c.nextId :: rest)
      = Except.ok ([Frame.msg c.nextId v], ⟨c.nextId + 1, some (i2, w2)⟩, rest) ∧
    Channel.send c v
        (Frame.msg i1 w1 :: Frame.msg i2 w2 :: Frame.ack c.nextId :: rest)
      = Channel.send c v (Frame.msg i2 w2 :: Frame.ack c.nextId :: rest) := by
  rw [Channel.send_eq, Channel.send_eq]
  constructor
  · simp [Nat.not_le.mpr h, splitAtAck, stashAfter]
  · simp [Nat.not_le.mpr h, splitAtAck, stashAfter]

/-- Witness for C10: a fresh channel sending `9` while msgs with ids 4
then 5 arrive before the matching ack 0 keeps only the id-5 message. -/
theorem c10_pending_overwrite_witness :
    Channel.send (Channel.new : Channel Nat) 9
        [Frame.msg 4 1, Frame.msg 5 2, Frame.ack 0]
      = Except.ok ([Frame.msg 0 9], ⟨1, some (5, 2)⟩, []) ∧
    Channel.send (Channel.new : Channel Nat) 9
        [Frame.msg 4 1, Frame.msg 5 2, Frame.ack 0]
      = Channel.send (Channel.new : Channel Nat) 9 [Frame.msg 5 2, Frame.ack 0] :=
  c10_pending_overwrite (Channel.new : Channel Nat) 9 1 2 4 5 [] (by decide)

/-! ## Orchestrator lemmas -/

/-- `List.contains` over a `DecidableEq`-induced `BEq` decides membership. -/
theorem contains_eq_mem {α : Type} [DecidableEq α] (l : List α) (a : α) :
    l.contains a = decide (a ∈ l) := by
  induction l with
  | nil => rfl
  | cons b l ih => simp [List.contains_cons] at *

/-- The `task_done` send loop succeeds on a scope whose members all have
channels, producing one send per scope entry with the published payload
rule. -/
theorem taskDoneSends_ok {V : Type} (chans last_frame targets : List PlayerId)
    (value : V) (scope : List PlayerId) (h : ∀ p ∈ scope, p ∈ chans) :
    taskDoneSends chans last_frame targets value scope =
      Except.ok (scope.map fun p =>
        (p, if p ∈ last_frame then TaskResult.doTask
            else if p ∈ targets then TaskResult.syncResult value
            else TaskResult.restricted)) := by
  induction scope with
  | nil => rfl
  | cons p rest ih =>
    have hp : chans.contains p = true := by
      rw [contains_eq_mem]
      exact decide_eq_true (h p (List.mem_cons_self p rest))
    rw [taskDoneSends, ih (fun q hq => h q (List.mem_cons_of_mem p hq)), if_pos hp]
    simp [contains_eq_mem]

/-- The broadcast send loop succeeds on a list of players who all have
channels, producing one send per entry carrying the broadcast value. -/
theorem broadcastSends_ok {V : Type} (chans : List PlayerId) (value : V)
    (players : List PlayerId) (h : ∀ p ∈ players, p ∈ chans) :
    broadcastSends chans value players =
      Except.ok (players.map fun p => (p, value)) := by
  induction players with
  | nil => rfl
  | cons p rest ih =>
    have hp : chans.contains p = true := by
      rw [contains_eq_mem]
      exact decide_eq_true (h p (List.mem_cons_self p rest))
    rw [broadcastSends, ih (fun q hq => h q (List.mem_cons_of_mem p hq)), if_pos hp]
    rfl

/-- Dropping the occurrences of one element shortens a list by exactly the
count of that element. -/
theorem length_filter_ne {α : Type} [DecidableEq α] (l : List α) (x : α) :
    (l.filter fun p => !(p == x)).length = l.length - l.count x := by
  induction l with
  | nil => rfl
  | cons a l ih =>
    have hcle : l.count x ≤ l.length := List.count_le_length x l
    by_cases h : a = x
    · subst h
      simp only [List.filter_cons, List.count_cons, List.length_cons]
      simp [ih]
    · simp only [List.filter_cons, List.count_cons, List.length_cons]
      simp [h, ih, Ne.symm h]
      omega

/-! ## Claim theorems: orchestrator and sandbox adapter -/

/-- C1: `Room::do_task_if` pushes `allowed` and replies `doTask` exactly
when every player of `allowed` is a member of the current scope (top of
the visibility stack, or the full seated room when the stack is empty);
otherwise it errors, failing the session. -/
theorem c1_do_task_if_contract {V : Type} (r : Room) (allowed : List PlayerId) :
    r.do_task_if (V := V) allowed =
      if ∀ p ∈ allowed, p ∈ r.scope then
        Except.ok ({ r with visibility := r.visibility ++ [allowed] },
          TaskResult.doTask)
      else Except.error "game tries to extend visibility" := by
  have key : (allowed.any fun p => !(r.scope.contains p)) = true ↔
      ¬ ∀ p ∈ allowed, p ∈ r.scope := by
    simp [List.any_eq_true, contains_eq_mem]
  by_cases h : ∀ p ∈ allowed, p ∈ r.scope
  · rw [if_pos h]
    have hcond : (allowed.any fun p => !(r.scope.contains p)) = false := by
      rw [← Bool.not_eq_true]
      simp only [key]
      simpa using h
    rw [Room.do_task_if, if_neg (by rw [hcond]; exact Bool.false_ne_true)]
  · rw [if_neg h]
    rw [Room.do_task_if, if_pos (key.mpr h)]

/-- C2 counterexample: in the reachable state with room `[red, blue]` and
visibility stack `[[red, red], [red]]` (pushed by `doTaskIf [red, red]`
then `doTaskIf [red]`), handling `taskDone{targets = [], value = 0}` pops
the top frame and then sends red — one player of the new current scope —
two messages, not exactly one. -/
theorem c2_counterexample :
    Room.task_done (Room.mk [PlayerId.red, PlayerId.blue]
        [[PlayerId.red, PlayerId.red], [PlayerId.red]]) [] (0 : Int)
      = Except.ok
          (Room.mk [PlayerId.red, PlayerId.blue] [[PlayerId.red, PlayerId.red]],
            [(PlayerId.red, TaskResult.doTask), (PlayerId.red, TaskResult.doTask)]) ∧
    List.countP (fun s => s.1 == PlayerId.red)
        [(PlayerId.red, TaskResult.doTask),
          (PlayerId.red, (TaskResult.doTask : TaskResult Int))] = 2 :=
  ⟨rfl, rfl⟩

/-- C2 amended: with an empty visibility stack `taskDone` fails the
session; with a non-empty stack it pops exactly the top frame `last` and
then sends, per occurrence of a player `p` in the new current scope (so
exactly one message per player whenever that scope has no duplicate
entries), one message with payload `doTask` if `p ∈ last`, else
`syncResult value` if `p ∈ targets`, else `restricted`. -/
theorem c2_task_done_contract {V : Type} (r : Room) (targets : List PlayerId)
    (value : V) :
    (r.visibility = [] →
      r.task_done targets value
        = Except.error "game requested taskDone event without previous doTaskIf") ∧
    (∀ pre last_frame, r.visibility = pre ++ [last_frame] →
      (∀ p ∈ (Room.mk r.chans pre).scope, p ∈ r.chans) →
      r.task_done targets value =
        Except.ok (Room.mk r.chans pre,
          (Room.mk r.chans pre).scope.map fun p =>
            (p, if p ∈ last_frame then TaskResult.doTask
                else if p ∈ targets then TaskResult.syncResult value
                else TaskResult.restricted))) := by
  constructor
  · intro h
    rw [Room.task_done, h]
    rfl
  · intro pre last_frame hvis hch
    rw [Room.task_done, hvis, List.getLast?_concat]
    dsimp only
    rw [List.dropLast_concat]
    rw [taskDoneSends_ok r.chans last_frame targets value
      (Room.mk r.chans pre).scope hch]

/-- Witness for C2 amended: room `[red, blue]`, stack `[[blue]]`,
`taskDone{targets = [red], value = 7}` pops `[blue]` and sends red
`syncResult 7` and blue `doTask`. -/
theorem c2_task_done_contract_witness :
    Room.task_done (Room.mk [PlayerId.red, PlayerId.blue] [[PlayerId.blue]])
        [PlayerId.red] (7 : Int)
      = Except.ok (Room.mk [PlayerId.red, PlayerId.blue] [],
          ((Room.mk [PlayerId.red, PlayerId.blue] ([] : List (List PlayerId))).scope.map
            fun p =>
              (p, if p ∈ [PlayerId.blue] then TaskResult.doTask
                  else if p ∈ [PlayerId.red] then TaskResult.syncResult (7 : Int)
                  else TaskResult.restricted))) :=
  (c2_task_done_contract (Room.mk [PlayerId.red, PlayerId.blue] [[PlayerId.blue]])
      [PlayerId.red] (7 : Int)).2 [] [PlayerId.blue] rfl (by decide)

/-- C3 counterexample: the `sessionEnd` branch of `trigger_io` performs no
check of the visibility stack — with the stack still holding `[[red]]`
the session ends cleanly with the unit reply and the stack non-empty. -/
theorem c3_counterexample :
    trigger_io true (Room.mk [PlayerId.red] [[PlayerId.red]]) 0 (0 : Int)
        Output.sessionEnd
      = Except.ok (Room.mk [PlayerId.red] [[PlayerId.red]], Reply.unit) ∧
    (Room.mk [PlayerId.red] [[PlayerId.red]]).visibility ≠ [] :=
  ⟨rfl, by decide⟩

/-- C3 amended: the `sessionEnd` handler performs no assertion on the
visibility stack: it replies unit and ends the session cleanly whatever
the stack holds, so the stack is empty at `sessionEnd` only when the
guest itself balanced every `doTaskIf` with a `taskDone`. -/
theorem c3_session_end_no_check {V : Type} (enable_state : Bool) (r : Room)
    (seed : Nat) (playerInput : V) :
    trigger_io enable_state r seed playerInput (Output.sessionEnd : Output V)
      = Except.ok (r, Reply.unit) :=
  rfl

/-- C4 counterexample: in the reachable state with room `[red, blue]` and
current scope `[red]` (after `doTaskIf [red]`), handling
`action{from = blue}` forwards the received value to one player, while
`|current_scope| − 1 = 0`: the claimed recipient count fails when `from`
is outside the current scope. -/
theorem c4_counterexample :
    Room.action (Room.mk [PlayerId.red, PlayerId.blue] [[PlayerId.red]])
        PlayerId.blue (42 : Int)
      = Except.ok (Room.mk [PlayerId.red, PlayerId.blue] [[PlayerId.red]], 42,
          [(PlayerId.red, 42)]) ∧
    (Room.mk [PlayerId.red, PlayerId.blue] [[PlayerId.red]]).scope.length - 1 = 0 :=
  ⟨rfl, by decide⟩

/-- C4 amended: `action{from}` awaits one received value on `from`'s
channel (erroring when `from` has no channel), forwards it unchanged to
exactly the entries of the current scope other than `from` — none of them
equal to `from`, numbering `|current_scope| − (count of from in scope)`,
which is `|current_scope| − 1` when `from` occurs once in the scope and
`|current_scope|` when `from` is outside it — and returns the received
value as the reply. -/
theorem c4_action_contract {V : Type} (r : Room) (from_ : PlayerId)
    (received : V) :
    (from_ ∉ r.chans →
      r.action from_ received
        = Except.error "game tried to grab not existing player channel") ∧
    (from_ ∈ r.chans → (∀ p ∈ r.scope, p ∈ r.chans) →
      r.action from_ received =
        Except.ok (r, received,
          (r.scope.filter fun p => !(p == from_)).map fun p => (p, received)) ∧
      (r.scope.filter fun p => !(p == from_)).length
        = r.scope.length - r.scope.count from_) := by
  constructor
  · intro h
    have hc : r.chans.contains from_ = false := by
      rw [contains_eq_mem]
      exact decide_eq_false h
    rw [Room.action, if_neg (by rw [hc]; exact Bool.false_ne_true)]
  · intro hf hs
    refine ⟨?_, length_filter_ne r.scope from_⟩
    have hc : r.chans.contains from_ = true := by
      rw [contains_eq_mem]
      exact decide_eq_true hf
    rw [Room.action, if_pos hc,
      broadcastSends_ok r.chans received _
        (fun p hp => hs p (List.mem_of_mem_filter hp))]

/-- Witness for C4 amended: room `[red, blue]`, empty stack,
`action{from = red}` with received value 3 forwards to blue only, and the
recipient count is `2 − 1`. -/
theorem c4_action_contract_witness :
    Room.action (Room.mk [PlayerId.red, PlayerId.blue] []) PlayerId.red (3 : Int)
      = Except.ok (Room.mk [PlayerId.red, PlayerId.blue] [], 3,
          ((Room.mk [PlayerId.red, PlayerId.blue]
              ([] : List (List PlayerId))).scope.filter
            (fun p => !(p == PlayerId.red))).map fun p => (p, (3 : Int))) ∧
    ((Room.mk [PlayerId.red, PlayerId.blue]
        ([] : List (List PlayerId))).scope.filter
      (fun p => !(p == PlayerId.red))).length
      = (Room.mk [PlayerId.red, PlayerId.blue]
          ([] : List (List PlayerId))).scope.length
        - (Room.mk [PlayerId.red, PlayerId.blue]
            ([] : List (List PlayerId))).scope.count PlayerId.red :=
  (c4_action_contract (Room.mk [PlayerId.red, PlayerId.blue] []) PlayerId.red
      (3 : Int)).2 (by decide) (by decide)

/-- C5 counterexample: in the reachable state with room `[red]` and
current scope `[red, red]` (pushed by `doTaskIf [red, red]`), handling
`random{1, 1}` sends red — the only scope member — two messages, not
exactly one. -/
theorem c5_counterexample :
    Room.random (Room.mk [PlayerId.red] [[PlayerId.red, PlayerId.red]]) 0 1 1
      = Except.ok (Room.mk [PlayerId.red] [[PlayerId.red, PlayerId.red]], 1,
          [(PlayerId.red, 1), (PlayerId.red, 1)]) ∧
    List.countP (fun s => s.1 == PlayerId.red)
        [(PlayerId.red, (1 : Int)), (PlayerId.red, 1)] = 2 :=
  ⟨by decide, rfl⟩

/-- C5 amended: for `random{start, end}` with a non-empty range, the drawn
integer lies in `[start, end]` inclusive, each occurrence of a player in
the current scope is sent one message carrying that same integer (so
exactly one message per member whenever the scope has no duplicate
entries), and the same integer is the reply to the guest. -/
theorem c5_random_contract (r : Room) (seed : Nat) (start stop : Int)
    (hrange : start ≤ stop) (hs : ∀ p ∈ r.scope, p ∈ r.chans) :
    Room.random r seed start stop
      = Except.ok (r, fastrandI32 seed start stop,
          r.scope.map fun p => (p, fastrandI32 seed start stop)) ∧
    start ≤ fastrandI32 seed start stop ∧ fastrandI32 seed start stop ≤ stop := by
  have hn : 0 < (stop + 1 - start).toNat := by omega
  have hmod : seed % (stop + 1 - start).toNat < (stop + 1 - start).toNat :=
    Nat.mod_lt seed hn
  refine ⟨?_, ?_, ?_⟩
  · rw [Room.random, broadcastSends_ok r.chans _ r.scope hs]
  · unfold fastrandI32
    omega
  · unfold fastrandI32
    omega

/-- Witness for C5 amended: room `[red, blue]`, empty stack,
`random{3, 4}` with seed 5 draws `3 + (5 mod 2) = 4`, in range, sent to
both players and returned. -/
theorem c5_random_contract_witness :
    Room.random (Room.mk [PlayerId.red, PlayerId.blue] []) 5 3 4
      = Except.ok (Room.mk [PlayerId.red, PlayerId.blue] [], fastrandI32 5 3 4,
          (Room.mk [PlayerId.red, PlayerId.blue]
            ([] : List (List PlayerId))).scope.map
              fun p => (p, fastrandI32 5 3 4)) ∧
    3 ≤ fastrandI32 5 3 4 ∧ fastrandI32 5 3 4 ≤ 4 :=
  c5_random_contract (Room.mk [PlayerId.red, PlayerId.blue] []) 5 3 4
    (by decide) (by decide)

/-- C9: on every `trigger_io`, a serialized reply longer than the
guest-advertised capacity fails the session with the memory untouched;
a reply that fits (within the guest memory bounds) is written byte for
byte at `input_ptr` and its length returned. -/
theorem c9_reply_cap_enforced (mem json : List Nat) (input_ptr input_cap : Nat) :
    (input_cap < json.length →
      writeReply mem input_ptr input_cap json
        = (mem, Except.error "reply length exceeds advertised input capacity")) ∧
    (json.length ≤ input_cap → input_ptr + json.length ≤ mem.length →
      writeReply mem input_ptr input_cap json
        = (mem.take input_ptr ++ json ++ mem.drop (input_ptr + json.length),
            Except.ok json.length)) := by
  constructor
  · intro h
    rw [writeReply, if_neg (by omega)]
  · intro h1 h2
    rw [writeReply, if_pos h1, memWrite, if_pos h2]

/-- Witness for C9: a 2-byte reply into capacity 1 fails with the memory
unchanged; into capacity 2 it lands at offset 1 of a 4-byte memory. -/
theorem c9_reply_cap_enforced_witness :
    writeReply [0, 0, 0, 0] 1 1 [7, 8]
      = ([0, 0, 0, 0],
          Except.error "reply length exceeds advertised input capacity") ∧
    writeReply [0, 0, 0, 0] 1 2 [7, 8] = ([0, 7, 8, 0], Except.ok 2) := by
  constructor
  · exact (c9_reply_cap_enforced [0, 0, 0, 0] [7, 8] 1 1).1 (by decide)
  · rw [(c9_reply_cap_enforced [0, 0, 0, 0] [7, 8] 1 2).2 (by decide) (by decide)]
    rfl

end Rulebook
